import Mathlib

/-!
Verification of the Meal Recommendation System (src/MealRec.py).

The Python program keeps, inside a `FoodRecommendationSystem` object:
  * a catalog: `cuisines` (a list), `dishes_by_cuisine` (a `defaultdict(list)`
    mapping cuisine name to an ordered dish list), `all_dishes` (the union);
  * `user_preference`: a dict `dishes` mapping dish name to per-dish counters
    `selection_count` / `recommendation_count`, and a `total_selections` counter;
  * persistence: `save_user_preference` writes the state to disk.

The embedding below represents dicts as ordered association lists (Python dicts
preserve insertion order and have unique keys; updates touch the first — hence
only — binding of a key, insertions append at the end), the defaultdict as an
association list that grows an empty binding on a missing-key subscript, and
persistence as a `saves` counter on the state.  `random.sample` is modelled by
an arbitrary `sample` function; facts that are claimed for every random outcome
are proved for every `sample` satisfying `SamplerValid` (the contract of
`random.sample`: a without-replacement draw of the requested size).
-/

/-- Per-dish statistics record, as stored in `user_preference['dishes']`. -/
structure DishStat where
  selection_count : Nat
  recommendation_count : Nat
deriving Repr, DecidableEq

/-- The `user_preference['dishes']` dict: an insertion-ordered association list. -/
abbrev Prefs := List (String × DishStat)

/-- The mutable state of a `FoodRecommendationSystem` object.  `saves` counts
calls to `save_user_preference` (persistence). -/
structure Sys where
  cuisines : List String
  dishes_by_cuisine : List (String × List String)
  all_dishes : List String
  pref_dishes : Prefs
  total_selections : Nat
  saves : Nat
deriving Repr, DecidableEq

/-- Dict lookup `user_preference['dishes'].get(d)`: first binding of the key. -/
def lookupStat : Prefs → String → Option DishStat
  | [], _ => none
  | e :: rest, d => if e.1 = d then some e.2 else lookupStat rest d

/-- Key lookup in `dishes_by_cuisine` (no defaultdict insertion). -/
def lookupDishes : List (String × List String) → String → Option (List String)
  | [], _ => none
  | e :: rest, c => if e.1 = c then some e.2 else lookupDishes rest c

/-- In-place update of the (first) binding of key `d`, as a Python dict
entry mutation `dict[d] = f dict[d]` does. -/
def setStat : Prefs → String → (DishStat → DishStat) → Prefs
  | [], _, _ => []
  | e :: rest, d, f => if e.1 = d then (e.1, f e.2) :: rest else e :: setStat rest d f

/-- `selection_count += 1`. -/
def bumpSel (st : DishStat) : DishStat :=
  { st with selection_count := st.selection_count + 1 }

/-- `recommendation_count += 1`. -/
def bumpRec (st : DishStat) : DishStat :=
  { st with recommendation_count := st.recommendation_count + 1 }

/-- `user_preference['dishes'].get(d, default-zero record)` (line 192 of the source). -/
def statOf (p : Prefs) (d : String) : DishStat :=
  (lookupStat p d).getD ⟨0, 0⟩

/-- `save_user_preference`: persistence, modelled as bumping the `saves` counter. -/
def save (s : Sys) : Sys :=
  { s with saves := s.saves + 1 }

/-- `update_user_preference(selected_dish)` (source lines 94-106). -/
def update_user_preference (s : Sys) (selected_dish : String) : Sys :=
  if selected_dish ∈ s.all_dishes then
    let p0 := if (lookupStat s.pref_dishes selected_dish).isSome then s.pref_dishes
              else s.pref_dishes ++ [(selected_dish, ⟨0, 0⟩)]
    save { s with pref_dishes := setStat p0 selected_dish bumpSel,
                  total_selections := s.total_selections + 1 }
  else s

/-- `reset_user_preference` (source lines 108-119). -/
def reset_user_preference (s : Sys) : Sys :=
  save { s with pref_dishes := [], total_selections := 0 }

/-- The loop body of `update_recommendation_count` (source lines 123-125):
for each dish in order, bump its counter when the dish has an entry. -/
def recFold (p : Prefs) (ds : List String) : Prefs :=
  ds.foldl (fun q d => if (lookupStat q d).isSome then setStat q d bumpRec else q) p

/-- `update_recommendation_count(recommended_dishes)` (source lines 121-126). -/
def update_recommendation_count (s : Sys) (recommended : List String) : Sys :=
  save { s with pref_dishes := recFold s.pref_dishes recommended }

/-- The tier-A condition (source lines 150-151): the dish has an entry in the
preference dict and its `recommendation_count` is 0. -/
def tierApred (p : Prefs) (d : String) : Bool :=
  match lookupStat p d with
  | some st => st.recommendation_count == 0
  | none => false

/-- The tier-B condition (source lines 155-157): the dish has an entry, was
recommended before and never selected. -/
def tierBpred (p : Prefs) (d : String) : Bool :=
  match lookupStat p d with
  | some st => decide (0 < st.recommendation_count) && st.selection_count == 0
  | none => false

/-- Tier A, `never_recommended` (source lines 149-151). -/
def never_recommended (p : Prefs) (avail : List String) : List String :=
  avail.filter (tierApred p)

/-- Tier B, `recommended_not_selected` (source lines 154-157). -/
def recommended_not_selected (p : Prefs) (avail : List String) : List String :=
  avail.filter (tierBpred p)

/-- Tier C, `other_dishes` (source lines 160-161): dishes in neither tier list. -/
def other_dishes (p : Prefs) (avail : List String) : List String :=
  avail.filter (fun d =>
    decide (d ∉ never_recommended p avail) && decide (d ∉ recommended_not_selected p avail))

/-- The first draw of the cold-start sampling branch (source lines 172-173):
`min(|A|, count-1)` dishes from A; the code skips the draw when that is 0. -/
def coldStage1 (sample : List String → Nat → List String) (A : List String)
    (count : Nat) : List String :=
  if 0 < min A.length (count - 1) then sample A (min A.length (count - 1)) else []

/-- One fill step of the cold-start sampling branch (source lines 176-183):
when slots remain and the pool is non-empty, extend the partial result by a
draw of `min(|pool|, remaining)` dishes from the pool. -/
def coldFillStep (sample : List String → Nat → List String) (pool : List String)
    (count : Nat) (r : List String) : List String :=
  if 0 < count - r.length ∧ pool ≠ [] then
    r ++ sample pool (min pool.length (count - r.length))
  else r

/-- The sampling branch of the cold-start selection (source lines 170-183):
draw from A, fill from B, then fill from C. -/
def coldSampleFill (sample : List String → Nat → List String)
    (A B C : List String) (count : Nat) : List String :=
  coldFillStep sample C count (coldFillStep sample B count (coldStage1 sample A count))

/-- The cold-start selection (source lines 163-187): return the full tier
concatenation when it fits in `count`, otherwise sample. -/
def coldResult (sample : List String → Nat → List String)
    (p : Prefs) (avail : List String) (count : Nat) : List String :=
  let A := never_recommended p avail
  let B := recommended_not_selected p avail
  let C := other_dishes p avail
  let prioritized := A ++ B ++ C
  if prioritized.length ≤ count then prioritized
  else coldSampleFill sample A B C count

/-- Warm-phase first sort key (source line 196): ascending in
`(-selection_count, recommendation_count)`. -/
def le1 (x y : String × DishStat) : Prop :=
  y.2.selection_count < x.2.selection_count ∨
    (x.2.selection_count = y.2.selection_count ∧
      x.2.recommendation_count ≤ y.2.recommendation_count)

instance decLe1 : DecidableRel le1 :=
  fun _ _ => inferInstanceAs (Decidable (_ ∨ _))

/-- Warm-phase second sort key (source line 203): ascending in
`(recommendation_count, -selection_count)`. -/
def le2 (x y : String × DishStat) : Prop :=
  x.2.recommendation_count < y.2.recommendation_count ∨
    (x.2.recommendation_count = y.2.recommendation_count ∧
      y.2.selection_count ≤ x.2.selection_count)

instance decLe2 : DecidableRel le2 :=
  fun _ _ => inferInstanceAs (Decidable (_ ∨ _))

/-- Warm-phase ranking (source lines 191-209): Python's `list.sort` is a
stable sort by key, modelled by the stable `List.insertionSort` on the
corresponding total preorders; 2 high-frequency picks then 5 low-frequency
picks from the re-sorted remainder. -/
def warmRecs (p : Prefs) (avail : List String) : List String :=
  let pairs := avail.map (fun d => (d, statOf p d))
  let sorted := List.insertionSort le1 pairs
  let high := (sorted.take 2).map (fun e => e.1)
  let remaining := List.insertionSort le2 (sorted.drop 2)
  let low := (remaining.take 5).map (fun e => e.1)
  high ++ low

/-- Warm-phase selection with the random fill (source lines 191-219). -/
def warmResult (sample : List String → Nat → List String)
    (p : Prefs) (avail : List String) : List String :=
  let recs := warmRecs p avail
  if recs.length < 7 then
    let pool := avail.filter (fun d => decide (d ∉ recs))
    if pool ≠ [] ∧ 0 < 7 - recs.length then
      if pool.length ≤ 7 - recs.length then recs ++ pool
      else recs ++ sample pool (7 - recs.length)
    else recs
  else recs

/-- `get_recommendations_by_cuisine(cuisine, count)` (source lines 135-224).
Returns the recommended list together with the state after the side effects
(`update_recommendation_count`, which persists once). -/
def get_recommendations_by_cuisine (sample : List String → Nat → List String)
    (s : Sys) (cuisine : String) (count : Nat) : List String × Sys :=
  match lookupDishes s.dishes_by_cuisine cuisine with
  | none => ([], s)
  | some available_dishes =>
    if available_dishes = [] then ([], s)
    else if s.total_selections < 10 then
      let result := coldResult sample s.pref_dishes available_dishes count
      (result, update_recommendation_count s result)
    else
      let recommendations := warmResult sample s.pref_dishes available_dishes
      (recommendations.take 7, update_recommendation_count s recommendations)

/-- Python's `str.lower()` on the (ASCII) menu strings: lowercase every
character.  (Computable model of `String.toLower`, whose well-founded
`mapAux` recursion does not reduce definitionally.) -/
def strLower (s : String) : String :=
  ⟨s.data.map Char.toLower⟩

/-- `check_cuisine_exists` (source lines 226-231). -/
def check_cuisine_exists (s : Sys) (cuisine : String) : Bool :=
  s.cuisines.any (fun n => strLower n == strLower cuisine)

/-- `check_dish_exists(dish, cuisine)` (source lines 233-237).  With a truthy
`cuisine` argument the code subscripts the `defaultdict`, which inserts an
empty dish list when the key is missing; the empty string is falsy in Python
and takes the `all_dishes` branch. -/
def check_dish_exists (s : Sys) (dish : String) (cuisine : Option String) : Bool × Sys :=
  match cuisine with
  | some c =>
    if c = "" then (decide (dish ∈ s.all_dishes), s)
    else
      match lookupDishes s.dishes_by_cuisine c with
      | some l => (decide (dish ∈ l), s)
      | none => (false, { s with dishes_by_cuisine := s.dishes_by_cuisine ++ [(c, [])] })
  | none => (decide (dish ∈ s.all_dishes), s)

/-- `get_cuisine_for_dish(dish)` (source lines 239-245): the first cuisine, in
catalog order, one of whose entries `m` satisfies `dish == m.lower()`. -/
def get_cuisine_for_dish (s : Sys) (dish : String) : Option String :=
  (s.dishes_by_cuisine.find? (fun e => e.2.any (fun m => dish == strLower m))).map (fun e => e.1)

/-- The contract of `random.sample(l, n)` for `n ≤ |l|`: a without-replacement
draw of exactly `n` of the positions of `l`, i.e. a sub-permutation of `l` of
length `n`.  Claims about every random outcome quantify over all such samplers. -/
def SamplerValid (sample : List String → Nat → List String) : Prop :=
  ∀ l n, n ≤ l.length → (sample l n).length = n ∧ List.Subperm (sample l n) l

/-- One concrete valid sampler (always draws the first `n` elements), used to
instantiate universally quantified statements at a concrete random outcome. -/
def takeSampler (l : List String) (n : Nat) : List String :=
  l.take n

/-- Sum of all `selection_count` values in the preference dict. -/
def sumSel (p : Prefs) : Nat :=
  (p.map (fun e => e.2.selection_count)).sum

/-- The state right after a fresh start (`load_user_preference` with no saved
file, source lines 75-83): a zeroed entry for every dish, zero total, one save. -/
def freshSys (cuisines : List String) (dbc : List (String × List String))
    (all_d : List String) : Sys :=
  ⟨cuisines, dbc, all_d, all_d.map (fun d => (d, ⟨0, 0⟩)), 0, 1⟩

/-- States reachable from a fresh start through the engine's mutating
operations (any arguments, any sampler). -/
inductive Reachable : Sys → Prop
  | init (cuisines : List String) (dbc : List (String × List String))
      (all_d : List String) : Reachable (freshSys cuisines dbc all_d)
  | select (s : Sys) (d : String) : Reachable s → Reachable (update_user_preference s d)
  | reset (s : Sys) : Reachable s → Reachable (reset_user_preference s)
  | recommend (s : Sys) (sample : List String → Nat → List String) (c : String)
      (n : Nat) : Reachable s → Reachable (get_recommendations_by_cuisine sample s c n).2

/-- The bookkeeping invariant: the running total equals the sum of the
per-dish selection counters. -/
def SelInv (s : Sys) : Prop :=
  s.total_selections = sumSel s.pref_dishes

/-- Modelled from the spec (claim C10 wording): the first cuisine in catalog
order whose dish list has an entry `m` with `m.toLower` equal to the input. -/
def findCuisineForDishSpec (dbc : List (String × List String)) (dish : String) : Option String :=
  match dbc with
  | [] => none
  | e :: rest =>
    if ∃ m ∈ e.2, dish = strLower m then some e.1 else findCuisineForDishSpec rest dish

/-! ### Dictionary lemmas -/

theorem lookupStat_setStat (p : Prefs) (d d' : String) (f : DishStat → DishStat) :
    lookupStat (setStat p d f) d' =
      if d' = d then (lookupStat p d').map f else lookupStat p d' := by
  induction p with
  | nil => by_cases h : d' = d <;> simp [setStat, lookupStat, h]
  | cons e rest ih =>
    by_cases h1 : e.1 = d
    · by_cases h2 : d' = d
      · simp [setStat, lookupStat, h1, h2, h1.trans h2.symm]
      · have h3 : ¬ e.1 = d' := fun h => h2 (h.symm.trans h1)
        have h4 : ¬ d = d' := fun h => h2 h.symm
        simp [setStat, lookupStat, h1, h2, h3, h4]
    · by_cases h3 : e.1 = d'
      · have h2 : ¬ d' = d := fun h => h1 (h3.trans h)
        simp [setStat, lookupStat, h1, h2, h3]
      · simp [setStat, lookupStat, h1, h3, ih]

theorem lookupStat_append (p q : Prefs) (d : String) :
    lookupStat (p ++ q) d = (lookupStat p d).or (lookupStat q d) := by
  induction p with
  | nil => simp [lookupStat]
  | cons e rest ih =>
    by_cases h : e.1 = d <;> simp [lookupStat, h, ih]

theorem sumSel_cons (e : String × DishStat) (p : Prefs) :
    sumSel (e :: p) = e.2.selection_count + sumSel p := by
  simp [sumSel]

theorem sumSel_append (p q : Prefs) : sumSel (p ++ q) = sumSel p + sumSel q := by
  simp [sumSel]

theorem sumSel_setStat_bumpSel (p : Prefs) (d : String)
    (h : (lookupStat p d).isSome) :
    sumSel (setStat p d bumpSel) = sumSel p + 1 := by
  induction p with
  | nil => simp [lookupStat] at h
  | cons e rest ih =>
    by_cases h1 : e.1 = d
    · simp [setStat, h1, sumSel_cons, bumpSel]; omega
    · have h' : (lookupStat rest d).isSome := by simpa [lookupStat, h1] using h
      simp [setStat, h1, sumSel_cons, ih h']; omega

theorem sumSel_setStat_bumpRec (p : Prefs) (d : String) :
    sumSel (setStat p d bumpRec) = sumSel p := by
  induction p with
  | nil => rfl
  | cons e rest ih =>
    by_cases h1 : e.1 = d
    · simp [setStat, h1, sumSel_cons, bumpRec]
    · simp [setStat, h1, sumSel_cons, ih]

theorem recFold_cons (p : Prefs) (d : String) (ds : List String) :
    recFold p (d :: ds) =
      recFold (if (lookupStat p d).isSome then setStat p d bumpRec else p) ds := rfl

theorem sumSel_recFold (p : Prefs) (ds : List String) :
    sumSel (recFold p ds) = sumSel p := by
  induction ds generalizing p with
  | nil => rfl
  | cons d rest ih =>
    rw [recFold_cons]
    by_cases h : (lookupStat p d).isSome
    · simp [h, ih, sumSel_setStat_bumpRec]
    · simp [h, ih]

theorem sumSel_fresh (all_d : List String) :
    sumSel (all_d.map (fun d => (d, (⟨0, 0⟩ : DishStat)))) = 0 := by
  induction all_d with
  | nil => rfl
  | cons d rest ih => simpa [sumSel_cons] using ih

/-! ### The invariant (claim C7) -/

theorem selInv_update (s : Sys) (d : String) (h : SelInv s) :
    SelInv (update_user_preference s d) := by
  unfold update_user_preference
  by_cases hm : d ∈ s.all_dishes
  · simp only [hm, if_pos]
    by_cases hl : (lookupStat s.pref_dishes d).isSome
    · have h1 := sumSel_setStat_bumpSel s.pref_dishes d hl
      simp only [hl, if_true, SelInv, save] at *
      omega
    · have hl2 : (lookupStat (s.pref_dishes ++ [(d, ⟨0, 0⟩)]) d).isSome := by
        rw [lookupStat_append]
        cases hx : lookupStat s.pref_dishes d <;> simp [Option.or, lookupStat]
      have h2 := sumSel_setStat_bumpSel (s.pref_dishes ++ [(d, ⟨0, 0⟩)]) d hl2
      have h3 : sumSel (s.pref_dishes ++ [(d, ⟨0, 0⟩)]) = sumSel s.pref_dishes := by
        simp [sumSel_append, sumSel_cons, sumSel]
      have hb : (lookupStat s.pref_dishes d).isSome = false := by
        simpa using hl
      simp only [hb, Bool.false_eq_true, if_false, SelInv, save] at *
      omega
  · simpa [hm] using h

theorem selInv_reset (s : Sys) : SelInv (reset_user_preference s) := by
  simp [SelInv, reset_user_preference, save, sumSel]

theorem selInv_update_rec (s : Sys) (ds : List String) (h : SelInv s) :
    SelInv (update_recommendation_count s ds) := by
  simpa [SelInv, update_recommendation_count, save, sumSel_recFold] using h

theorem selInv_recommend (s : Sys) (sample : List String → Nat → List String)
    (c : String) (n : Nat) (h : SelInv s) :
    SelInv (get_recommendations_by_cuisine sample s c n).2 := by
  unfold get_recommendations_by_cuisine
  cases hx : lookupDishes s.dishes_by_cuisine c with
  | none => exact h
  | some avail =>
    by_cases h1 : avail = []
    · simpa [h1] using h
    · by_cases h2 : s.total_selections < 10 <;>
        simp [h1, h2, selInv_update_rec s _ h]

/-- C7: for every reachable state, `total_selections` equals the sum of the
per-dish `selection_count` values, and this equality is preserved by
`update_user_preference` (record_selection), `reset_user_preference` and
`get_recommendations_by_cuisine` (recommend, for every sampler). -/
theorem c7_total_selections_is_sum_invariant :
    (∀ s, Reachable s → SelInv s) ∧
    (∀ s d, SelInv s → SelInv (update_user_preference s d)) ∧
    (∀ s, SelInv (reset_user_preference s)) ∧
    (∀ s sample c n, SelInv s → SelInv (get_recommendations_by_cuisine sample s c n).2) := by
  refine ⟨?_, selInv_update, selInv_reset, selInv_recommend⟩
  intro s hr
  induction hr with
  | init cs dbc ad => simp [SelInv, freshSys, sumSel_fresh]
  | select s d _ ih => exact selInv_update s d ih
  | reset s _ _ => exact selInv_reset s
  | recommend s sample c n _ ih => exact selInv_recommend s sample c n ih

/-- Witness for C7 at a concrete reachable state. -/
theorem c7_witness :
    SelInv (update_user_preference
      (freshSys ["Chinese Cuisine"] [("Chinese Cuisine", ["Dumplings"])] ["Dumplings"])
      "Dumplings") :=
  c7_total_selections_is_sum_invariant.1 _
    (Reachable.select _ "Dumplings" (Reachable.init _ _ _))

/-! ### record_selection (claim C8) -/

/-- C8: `update_user_preference` on a dish of `all_dishes` gives that dish an
entry holding its old statistics (zeroed when absent) with `selection_count`
one higher, leaves every other dish's entry unchanged, raises
`total_selections` by one and persists once; on a dish outside `all_dishes`
it is a silent no-op. -/
theorem c8_record_selection_contract (s : Sys) (d : String) :
    (d ∈ s.all_dishes →
      lookupStat (update_user_preference s d).pref_dishes d =
        some (bumpSel (statOf s.pref_dishes d)) ∧
      (∀ d', d' ≠ d → lookupStat (update_user_preference s d).pref_dishes d' =
        lookupStat s.pref_dishes d') ∧
      (update_user_preference s d).total_selections = s.total_selections + 1 ∧
      (update_user_preference s d).saves = s.saves + 1 ∧
      (update_user_preference s d).cuisines = s.cuisines ∧
      (update_user_preference s d).dishes_by_cuisine = s.dishes_by_cuisine ∧
      (update_user_preference s d).all_dishes = s.all_dishes) ∧
    (d ∉ s.all_dishes → update_user_preference s d = s) := by
  constructor
  · intro hm
    unfold update_user_preference
    simp only [hm, if_pos]
    by_cases hl : (lookupStat s.pref_dishes d).isSome
    · obtain ⟨st, hst⟩ := Option.isSome_iff_exists.mp hl
      refine ⟨?_, ?_, by simp [save], by simp [save], by simp [save], by simp [save],
        by simp [save]⟩
      · simp [save, hl, lookupStat_setStat, hst, statOf]
      · intro d' hd'
        simp [save, hl, lookupStat_setStat, hd']
    · have hnone : lookupStat s.pref_dishes d = none := by
        cases hx : lookupStat s.pref_dishes d
        · rfl
        · simp [hx] at hl
      refine ⟨?_, ?_, by simp [save], by simp [save], by simp [save], by simp [save],
        by simp [save]⟩
      · simp [save, hl, lookupStat_setStat, lookupStat_append, hnone, Option.or, lookupStat,
          statOf]
      · intro d' hd'
        have hd2 : ¬ d = d' := fun hh => hd' hh.symm
        simp only [save, hl, if_false, lookupStat_setStat, hd', lookupStat_append,
          lookupStat, hd2, if_neg]
        cases hx : lookupStat s.pref_dishes d' <;>
          simp [lookupStat_append, lookupStat, hx, hd2, Option.or]
  · intro hm
    simp [update_user_preference, hm]

/-- Concrete system for the C8 witness. -/
def sysC8 : Sys :=
  freshSys ["Chinese Cuisine"] [("Chinese Cuisine", ["Dumplings"])] ["Dumplings"]

/-- Witness for C8: both sides of the contract discharged at concrete dishes. -/
theorem c8_witness :
    (lookupStat (update_user_preference sysC8 "Dumplings").pref_dishes "Dumplings" =
      some (bumpSel (statOf sysC8.pref_dishes "Dumplings")) ∧
      (update_user_preference sysC8 "Dumplings").total_selections =
        sysC8.total_selections + 1) ∧
    update_user_preference sysC8 "Pizza" = sysC8 := by
  have hpos := (c8_record_selection_contract sysC8 "Dumplings").1 (by decide)
  have hneg := (c8_record_selection_contract sysC8 "Pizza").2 (by decide)
  exact ⟨⟨hpos.1, hpos.2.2.1⟩, hneg⟩

/-! ### Cold-start tiers (claims C3 and C1) -/

theorem tierA_excludes_tierB (p : Prefs) (d : String) (h : tierApred p d = true) :
    tierBpred p d = false := by
  unfold tierApred tierBpred at *
  cases hx : lookupStat p d with
  | none => rfl
  | some st =>
    rw [hx] at h
    have h0 : st.recommendation_count = 0 := by simpa using h
    simp [h0]

theorem mem_never_recommended (p : Prefs) (avail : List String) (d : String) :
    d ∈ never_recommended p avail ↔ d ∈ avail ∧ tierApred p d = true := by
  simp [never_recommended, List.mem_filter]

theorem mem_recommended_not_selected (p : Prefs) (avail : List String) (d : String) :
    d ∈ recommended_not_selected p avail ↔ d ∈ avail ∧ tierBpred p d = true := by
  simp [recommended_not_selected, List.mem_filter]

theorem mem_other_dishes (p : Prefs) (avail : List String) (d : String) :
    d ∈ other_dishes p avail ↔
      d ∈ avail ∧ d ∉ never_recommended p avail ∧ d ∉ recommended_not_selected p avail := by
  simp [other_dishes, List.mem_filter]

/-- For elements of the list, the tier-C membership test on the two filtered
lists coincides with the pointwise predicate test. -/
theorem other_dishes_eq (p : Prefs) (avail : List String) :
    other_dishes p avail = avail.filter (fun d => !tierApred p d && !tierBpred p d) := by
  unfold other_dishes
  apply List.filter_congr
  intro d hd
  by_cases hA : tierApred p d = true
  · simp [mem_never_recommended, hd, hA]
  · by_cases hB : tierBpred p d = true
    · simp [mem_never_recommended, mem_recommended_not_selected, hd, hA, hB]
    · simp [mem_never_recommended, mem_recommended_not_selected, hd, hA, hB]

/-- A list is a permutation of its three-way split by two exclusive tests. -/
theorem filter3_perm {α : Type} (l : List α) (f g : α → Bool)
    (hfg : ∀ x, f x = true → g x = false) :
    List.Perm (l.filter f ++ (l.filter g ++ l.filter (fun x => !f x && !g x))) l := by
  induction l with
  | nil => simp
  | cons a l ih =>
    by_cases hf : f a = true
    · have hg := hfg a hf
      simpa [hf, hg] using ih.cons a
    · have hf' : f a = false := by simpa using hf
      by_cases hg : g a = true
      · have step : List.Perm
            (l.filter f ++ (a :: (l.filter g ++ l.filter (fun x => !f x && !g x))))
            (a :: (l.filter f ++ (l.filter g ++ l.filter (fun x => !f x && !g x)))) :=
          List.perm_middle
        simpa [hf', hg] using step.trans (ih.cons a)
      · have hg' : g a = false := by simpa using hg
        have step1 : List.Perm
            (l.filter g ++ (a :: l.filter (fun x => !f x && !g x)))
            (a :: (l.filter g ++ l.filter (fun x => !f x && !g x))) :=
          List.perm_middle
        have step2 := (List.Perm.append_left (l.filter f) step1).trans
          (@List.perm_middle _ a (l.filter f)
            (l.filter g ++ l.filter (fun x => !f x && !g x)))
        simpa [hf', hg'] using step2.trans (ih.cons a)

/-- The `prioritized_dishes` concatenation (source line 164) is a permutation
of the available dish list. -/
theorem prioritized_perm (p : Prefs) (avail : List String) :
    List.Perm (never_recommended p avail ++ recommended_not_selected p avail ++
      other_dishes p avail) avail := by
  rw [other_dishes_eq, List.append_assoc]
  exact filter3_perm avail (tierApred p) (tierBpred p) (tierA_excludes_tierB p)

/-- C3 (amended): the three cold-start tiers are pairwise disjoint and
together are a permutation of the cuisine's available dishes; every available
dish that has a preference entry with `recommendation_count = 0` is in tier A
(a dish with no entry falls in tier C, not tier A). -/
theorem c3_tiers_partition (p : Prefs) (avail : List String) :
    List.Perm (never_recommended p avail ++ recommended_not_selected p avail ++
      other_dishes p avail) avail ∧
    (∀ d, d ∈ never_recommended p avail → d ∉ recommended_not_selected p avail) ∧
    (∀ d, d ∈ other_dishes p avail →
      d ∉ never_recommended p avail ∧ d ∉ recommended_not_selected p avail) ∧
    (∀ d st, d ∈ avail → lookupStat p d = some st → st.recommendation_count = 0 →
      d ∈ never_recommended p avail) := by
  refine ⟨prioritized_perm p avail, ?_, ?_, ?_⟩
  · intro d hA hB
    have h1 := ((mem_never_recommended p avail d).mp hA).2
    have h2 := ((mem_recommended_not_selected p avail d).mp hB).2
    rw [tierA_excludes_tierB p d h1] at h2
    exact absurd h2 (by simp)
  · intro d hC
    exact ((mem_other_dishes p avail d).mp hC).2
  · intro d st hd hst h0
    refine (mem_never_recommended p avail d).mpr ⟨hd, ?_⟩
    simp [tierApred, hst, h0]

/-- Witness for C3 at a concrete preference dict and dish list. -/
theorem c3_witness :
    List.Perm (never_recommended [("Dumplings", ⟨0, 0⟩)] ["Dumplings", "Noodles"] ++
      recommended_not_selected [("Dumplings", ⟨0, 0⟩)] ["Dumplings", "Noodles"] ++
      other_dishes [("Dumplings", ⟨0, 0⟩)] ["Dumplings", "Noodles"])
      ["Dumplings", "Noodles"] ∧
    "Dumplings" ∈ never_recommended [("Dumplings", ⟨0, 0⟩)] ["Dumplings", "Noodles"] := by
  have h := c3_tiers_partition [("Dumplings", ⟨0, 0⟩)] ["Dumplings", "Noodles"]
  exact ⟨h.1, h.2.2.2 "Dumplings" ⟨0, 0⟩ (by decide) (by decide) (by decide)⟩

/-- C3 counterexample: an available dish with `recommendation_count = 0` by
the absent-entry convention (no entry in the preference dict) is put in tier
C, not in tier A as the claim states. -/
theorem c3_counterexample :
    never_recommended [] ["Dumplings"] = [] ∧
    other_dishes [] ["Dumplings"] = ["Dumplings"] ∧
    (statOf [] "Dumplings").recommendation_count = 0 := by decide

/-- When the full tier concatenation fits in `count`, the cold-start
selection returns it unchanged (source lines 167-168). -/
theorem coldResult_small (sample : List String → Nat → List String) (p : Prefs)
    (avail : List String) (count : Nat)
    (h : avail.length ≤ count) :
    coldResult sample p avail count =
      never_recommended p avail ++ recommended_not_selected p avail ++
        other_dishes p avail := by
  have hlen : (never_recommended p avail ++ recommended_not_selected p avail ++
      other_dishes p avail).length = avail.length :=
    (prioritized_perm p avail).length_eq
  unfold coldResult
  simp only [hlen.trans_le h, if_pos]

/-- C1 (amended): in the cold-start phase, for a known cuisine whose dish
list has at most `count` dishes, `recommend` returns exactly the tier
concatenation A ++ B ++ C — a permutation of the catalog dish list, hence
every dish exactly once (for a duplicate-free list), though in tier order
rather than catalog order. -/
theorem c1_cold_start_completeness (sample : List String → Nat → List String)
    (s : Sys) (cuisine : String) (count : Nat) (avail : List String)
    (h1 : lookupDishes s.dishes_by_cuisine cuisine = some avail)
    (h2 : avail.length ≤ count)
    (h3 : s.total_selections < 10) :
    (get_recommendations_by_cuisine sample s cuisine count).1 =
      never_recommended s.pref_dishes avail ++
        recommended_not_selected s.pref_dishes avail ++
        other_dishes s.pref_dishes avail ∧
    List.Perm (get_recommendations_by_cuisine sample s cuisine count).1 avail ∧
    (avail.Nodup → ((get_recommendations_by_cuisine sample s cuisine count).1).Nodup) := by
  have key : (get_recommendations_by_cuisine sample s cuisine count).1 =
      never_recommended s.pref_dishes avail ++
        recommended_not_selected s.pref_dishes avail ++
        other_dishes s.pref_dishes avail := by
    unfold get_recommendations_by_cuisine
    rw [h1]
    by_cases h0 : avail = []
    · subst h0
      simp [never_recommended, recommended_not_selected, other_dishes]
    · simp only [h0, if_neg, if_pos, h3, if_true]
      simp [coldResult_small sample s.pref_dishes avail count h2]
  have hperm : List.Perm (get_recommendations_by_cuisine sample s cuisine count).1 avail := by
    rw [key]; exact prioritized_perm s.pref_dishes avail
  exact ⟨key, hperm, fun hnd => hperm.nodup_iff.mpr hnd⟩

/-- Concrete cold-start state for the C1 witness: fresh preferences. -/
def sysC1w : Sys :=
  freshSys ["Chinese Cuisine"] [("Chinese Cuisine", ["Dumplings", "Noodles"])]
    ["Dumplings", "Noodles"]

/-- Witness for C1 at a concrete state: both dishes fit in `count = 5`. -/
theorem c1_witness :
    (get_recommendations_by_cuisine takeSampler sysC1w "Chinese Cuisine" 5).1 =
      never_recommended sysC1w.pref_dishes ["Dumplings", "Noodles"] ++
        recommended_not_selected sysC1w.pref_dishes ["Dumplings", "Noodles"] ++
        other_dishes sysC1w.pref_dishes ["Dumplings", "Noodles"] ∧
    List.Perm (get_recommendations_by_cuisine takeSampler sysC1w "Chinese Cuisine" 5).1
      ["Dumplings", "Noodles"] ∧
    ((get_recommendations_by_cuisine takeSampler sysC1w "Chinese Cuisine" 5).1).Nodup := by
  have h := c1_cold_start_completeness takeSampler sysC1w "Chinese Cuisine" 5
    ["Dumplings", "Noodles"] (by decide) (by decide) (by decide)
  exact ⟨h.1, h.2.1, h.2.2 (by decide)⟩

/-- Concrete cold-start state for the C1 counterexample: "Dumplings" was
recommended once (tier B), "Noodles" never (tier A). -/
def sysC1 : Sys :=
  ⟨["Chinese Cuisine"], [("Chinese Cuisine", ["Dumplings", "Noodles"])],
    ["Dumplings", "Noodles"],
    [("Dumplings", ⟨0, 1⟩), ("Noodles", ⟨0, 0⟩)], 0, 1⟩

/-- C1 counterexample: with both dishes fitting in `count`, the cold-start
result lists tier A before tier B and is therefore not in catalog order. -/
theorem c1_counterexample :
    (get_recommendations_by_cuisine takeSampler sysC1 "Chinese Cuisine" 5).1 =
      ["Noodles", "Dumplings"] ∧
    lookupDishes sysC1.dishes_by_cuisine "Chinese Cuisine" =
      some ["Dumplings", "Noodles"] ∧
    sysC1.total_selections < 10 ∧
    (["Noodles", "Dumplings"] : List String) ≠ ["Dumplings", "Noodles"] := by decide

/-! ### Cold-start sampling (claim C2) -/

theorem takeSampler_valid : SamplerValid takeSampler := by
  intro l n h
  constructor
  · simp [takeSampler]; omega
  · exact (List.take_sublist n l).subperm

theorem sample_part_facts {sample : List String → Nat → List String}
    (hs : SamplerValid sample) {L : List String} (hL : L.Nodup) (n : Nat)
    (hn : n ≤ L.length) :
    (sample L n).Nodup ∧ ∀ d ∈ sample L n, d ∈ L := by
  obtain ⟨hlen, hsub⟩ := hs L n hn
  refine ⟨?_, fun d hd => hsub.subset hd⟩
  obtain ⟨m, hm1, hm2⟩ := hsub
  exact hm1.nodup_iff.mp (List.Nodup.sublist hm2 hL)

theorem coldStage1_length (sample : List String → Nat → List String)
    (A : List String) (count : Nat) (hs : SamplerValid sample) :
    (coldStage1 sample A count).length = min A.length (count - 1) := by
  unfold coldStage1
  split
  · exact (hs A (min A.length (count - 1)) (Nat.min_le_left _ _)).1
  · simp only [List.length_nil]
    omega

theorem coldFillStep_length (sample : List String → Nat → List String)
    (pool : List String) (count : Nat) (r : List String) (hs : SamplerValid sample) :
    (coldFillStep sample pool count r).length =
      if 0 < count - r.length ∧ pool ≠ [] then
        r.length + min pool.length (count - r.length)
      else r.length := by
  unfold coldFillStep
  split
  · rw [List.length_append,
      (hs pool (min pool.length (count - r.length)) (Nat.min_le_left _ _)).1]
  · rfl

theorem coldStage1_facts (sample : List String → Nat → List String)
    (A : List String) (count : Nat) (hs : SamplerValid sample) (hA : A.Nodup) :
    (coldStage1 sample A count).Nodup ∧ ∀ d ∈ coldStage1 sample A count, d ∈ A := by
  unfold coldStage1
  split
  · exact sample_part_facts hs hA (min A.length (count - 1)) (Nat.min_le_left _ _)
  · simp

theorem coldFillStep_facts (sample : List String → Nat → List String)
    (pool : List String) (count : Nat) (r : List String) (hs : SamplerValid sample)
    (hpool : pool.Nodup) (hr : r.Nodup) (P : String → Prop)
    (hrm : ∀ d ∈ r, P d) (hdisj : ∀ d, P d → d ∉ pool) :
    (coldFillStep sample pool count r).Nodup ∧
      ∀ d ∈ coldFillStep sample pool count r, P d ∨ d ∈ pool := by
  unfold coldFillStep
  split
  · have hsp := sample_part_facts hs hpool (min pool.length (count - r.length))
      (Nat.min_le_left _ _)
    constructor
    · rw [List.nodup_append]
      refine ⟨hr, hsp.1, ?_⟩
      intro a ha hb
      exact hdisj a (hrm a ha) (hsp.2 a hb)
    · intro d hd
      rcases List.mem_append.mp hd with h | h
      · exact Or.inl (hrm d h)
      · exact Or.inr (hsp.2 d h)
  · exact ⟨hr, fun d hd => Or.inl (hrm d hd)⟩

theorem coldSampleFill_length (sample : List String → Nat → List String)
    (A B C : List String) (count : Nat) (hs : SamplerValid sample)
    (hbig : count < A.length + B.length + C.length) (hc : 1 ≤ count) :
    (coldSampleFill sample A B C count).length =
      if B = [] ∧ C = [] then count - 1 else count := by
  unfold coldSampleFill
  rw [coldFillStep_length sample C count
      (coldFillStep sample B count (coldStage1 sample A count)) hs,
    coldFillStep_length sample B count (coldStage1 sample A count) hs,
    coldStage1_length sample A count hs]
  by_cases hB : B = []
  · by_cases hC : C = []
    · rw [hB, hC] at hbig ⊢
      simp only [List.length_nil] at hbig ⊢
      simp
      omega
    · have hCpos : 0 < C.length := List.length_pos.mpr hC
      rw [hB] at hbig ⊢
      simp only [List.length_nil] at hbig ⊢
      simp [hC]
      split_ifs <;> omega
  · have hBpos : 0 < B.length := List.length_pos.mpr hB
    by_cases hC : C = []
    · have hCpos : C.length = 0 := by rw [hC]; rfl
      simp [hB, hC]
      split_ifs <;> omega
    · have hCpos : 0 < C.length := List.length_pos.mpr hC
      simp [hB, hC]
      split_ifs <;> omega

theorem coldSampleFill_nodup (sample : List String → Nat → List String)
    (A B C : List String) (count : Nat) (hs : SamplerValid sample)
    (hA : A.Nodup) (hB : B.Nodup) (hC : C.Nodup)
    (hAB : List.Disjoint A B) (hAC : List.Disjoint A C) (hBC : List.Disjoint B C) :
    (coldSampleFill sample A B C count).Nodup := by
  have h1 := coldStage1_facts sample A count hs hA
  have h2 := coldFillStep_facts sample B count (coldStage1 sample A count) hs hB h1.1
    (fun d => d ∈ A) h1.2 (fun d hdA hdB => hAB hdA hdB)
  have h3 := coldFillStep_facts sample C count
    (coldFillStep sample B count (coldStage1 sample A count)) hs hC h2.1
    (fun d => d ∈ A ∨ d ∈ B) h2.2
    (fun d hor hdC => hor.elim (fun h => hAC h hdC) (fun h => hBC h hdC))
  exact h3.1

theorem tiers_disjoint (p : Prefs) (avail : List String) :
    List.Disjoint (never_recommended p avail) (recommended_not_selected p avail) ∧
    List.Disjoint (never_recommended p avail) (other_dishes p avail) ∧
    List.Disjoint (recommended_not_selected p avail) (other_dishes p avail) := by
  refine ⟨?_, ?_, ?_⟩ <;> intro a h1 h2
  · have hA := ((mem_never_recommended p avail a).mp h1).2
    have hB := ((mem_recommended_not_selected p avail a).mp h2).2
    rw [tierA_excludes_tierB p a hA] at hB
    exact absurd hB (by simp)
  · exact ((mem_other_dishes p avail a).mp h2).2.1 h1
  · exact ((mem_other_dishes p avail a).mp h2).2.2 h1

/-- When the tiers overflow `count`, the cold-start selection samples
(source lines 169-183). -/
theorem coldResult_big (sample : List String → Nat → List String) (p : Prefs)
    (avail : List String) (count : Nat) (h : count < avail.length) :
    coldResult sample p avail count =
      coldSampleFill sample (never_recommended p avail)
        (recommended_not_selected p avail) (other_dishes p avail) count := by
  have hlen := (prioritized_perm p avail).length_eq
  simp only [coldResult]
  rw [if_neg (by omega)]

/-- C2 (amended): in the cold-start phase with a duplicate-free dish list of
more than `count` dishes, the result of `recommend` has no dish twice and has
length exactly `count` — except when tiers B and C are both empty, where the
slot reserved for them stays unfilled and the length is `count - 1`. -/
theorem c2_cold_start_sampling (sample : List String → Nat → List String)
    (s : Sys) (cuisine : String) (count : Nat) (avail : List String)
    (hs : SamplerValid sample)
    (h1 : lookupDishes s.dishes_by_cuisine cuisine = some avail)
    (h2 : count < avail.length)
    (h3 : s.total_selections < 10)
    (h4 : avail.Nodup)
    (h5 : 1 ≤ count) :
    ((get_recommendations_by_cuisine sample s cuisine count).1).Nodup ∧
    ((get_recommendations_by_cuisine sample s cuisine count).1).length =
      (if recommended_not_selected s.pref_dishes avail = [] ∧
          other_dishes s.pref_dishes avail = [] then count - 1 else count) := by
  have h0 : avail ≠ [] := by
    intro hx
    rw [hx] at h2
    simp at h2
  have hres : (get_recommendations_by_cuisine sample s cuisine count).1 =
      coldSampleFill sample (never_recommended s.pref_dishes avail)
        (recommended_not_selected s.pref_dishes avail)
        (other_dishes s.pref_dishes avail) count := by
    unfold get_recommendations_by_cuisine
    rw [h1]
    simp only [h0, if_neg, h3, if_true, if_pos]
    exact coldResult_big sample s.pref_dishes avail count h2
  have htot := (prioritized_perm s.pref_dishes avail).length_eq
  rw [List.length_append, List.length_append] at htot
  have hd := tiers_disjoint s.pref_dishes avail
  rw [hres]
  constructor
  · exact coldSampleFill_nodup sample _ _ _ count hs
      (h4.filter _) (h4.filter _) (h4.filter _) hd.1 hd.2.1 hd.2.2
  · exact coldSampleFill_length sample _ _ _ count hs (by omega) h5

/-- Cold-start state for the C2 witness: four tier-A dishes, one tier-B dish,
one tier-C dish; six dishes against `count = 5`. -/
def sysC2w : Sys :=
  ⟨["c"], [("c", ["d1", "d2", "d3", "d4", "d5", "d6"])],
    ["d1", "d2", "d3", "d4", "d5", "d6"],
    [("d1", ⟨0, 0⟩), ("d2", ⟨0, 0⟩), ("d3", ⟨0, 0⟩), ("d4", ⟨0, 0⟩),
      ("d5", ⟨0, 1⟩), ("d6", ⟨1, 1⟩)], 1, 1⟩

/-- Witness for C2 at a concrete state and concrete valid sampler. -/
theorem c2_witness :
    ((get_recommendations_by_cuisine takeSampler sysC2w "c" 5).1).Nodup ∧
    ((get_recommendations_by_cuisine takeSampler sysC2w "c" 5).1).length =
      (if recommended_not_selected sysC2w.pref_dishes
            ["d1", "d2", "d3", "d4", "d5", "d6"] = [] ∧
          other_dishes sysC2w.pref_dishes ["d1", "d2", "d3", "d4", "d5", "d6"] = []
        then 5 - 1 else 5) :=
  c2_cold_start_sampling takeSampler sysC2w "c" 5 ["d1", "d2", "d3", "d4", "d5", "d6"]
    takeSampler_valid (by decide) (by decide) (by decide) (by decide) (by decide)

/-- Cold-start state for the C2 counterexample: all six dishes in tier A,
tiers B and C empty. -/
def sysC2 : Sys :=
  ⟨["c"], [("c", ["d1", "d2", "d3", "d4", "d5", "d6"])],
    ["d1", "d2", "d3", "d4", "d5", "d6"],
    [("d1", ⟨0, 0⟩), ("d2", ⟨0, 0⟩), ("d3", ⟨0, 0⟩), ("d4", ⟨0, 0⟩),
      ("d5", ⟨0, 0⟩), ("d6", ⟨0, 0⟩)], 0, 1⟩

/-- C2 counterexample: with tiers B and C empty and six tier-A dishes against
`count = 5`, `recommend` returns only 4 dishes, not
`min(count, |A|+|B|+|C|) = 5` as the claim states — under a valid sampler. -/
theorem c2_counterexample :
    SamplerValid takeSampler ∧
    (get_recommendations_by_cuisine takeSampler sysC2 "c" 5).1 =
      ["d1", "d2", "d3", "d4"] ∧
    ((get_recommendations_by_cuisine takeSampler sysC2 "c" 5).1).length = 4 ∧
    lookupDishes sysC2.dishes_by_cuisine "c" =
      some ["d1", "d2", "d3", "d4", "d5", "d6"] ∧
    sysC2.total_selections < 10 :=
  ⟨takeSampler_valid, by decide, by decide, by decide, by decide⟩

/-! ### Warm phase (claim C4) -/

theorem warmRecs_length (p : Prefs) (avail : List String) :
    (warmRecs p avail).length = min 2 avail.length + min 5 (avail.length - 2) := by
  unfold warmRecs
  simp only [List.length_append, List.length_map, List.length_take,
    (List.perm_insertionSort le2 _).length_eq, List.length_drop,
    (List.perm_insertionSort le1 _).length_eq]

theorem warmRecs_covers (p : Prefs) (avail : List String) (h : avail.length < 7) :
    ∀ d ∈ avail, d ∈ warmRecs p avail := by
  intro d hd
  unfold warmRecs
  have hpair : (d, statOf p d) ∈ avail.map (fun x => (x, statOf p x)) :=
    List.mem_map_of_mem _ hd
  have hsorted : (d, statOf p d) ∈
      List.insertionSort le1 (avail.map (fun x => (x, statOf p x))) :=
    ((List.perm_insertionSort le1 _).mem_iff).mpr hpair
  rw [← List.take_append_drop 2
    (List.insertionSort le1 (avail.map (fun x => (x, statOf p x))))] at hsorted
  rcases List.mem_append.mp hsorted with hx | hx
  · exact List.mem_append_left _ (List.mem_map_of_mem _ hx)
  · have hrem : (d, statOf p d) ∈
        List.insertionSort le2
          ((List.insertionSort le1 (avail.map (fun x => (x, statOf p x)))).drop 2) :=
      ((List.perm_insertionSort le2 _).symm.mem_iff).mp hx
    have hlen : (List.insertionSort le2
        ((List.insertionSort le1 (avail.map (fun x => (x, statOf p x)))).drop 2)).length
        ≤ 5 := by
      rw [(List.perm_insertionSort le2 _).length_eq, List.length_drop,
        (List.perm_insertionSort le1 _).length_eq, List.length_map]
      omega
    rw [← List.take_of_length_le hlen] at hrem
    exact List.mem_append_right _ (List.mem_map_of_mem _ hrem)

theorem warmResult_length (sample : List String → Nat → List String)
    (p : Prefs) (avail : List String) :
    (warmResult sample p avail).length = min 7 avail.length := by
  have hrl := warmRecs_length p avail
  unfold warmResult
  by_cases h7 : (warmRecs p avail).length < 7
  · rw [if_pos h7]
    have hn : avail.length < 7 := by omega
    have hpool : avail.filter (fun d => decide (d ∉ warmRecs p avail)) = [] := by
      refine List.filter_eq_nil_iff.mpr ?_
      intro a ha
      simpa using warmRecs_covers p avail hn a ha
    rw [hpool]
    rw [if_neg (by simp)]
    omega
  · rw [if_neg h7]
    omega

/-- C4: in the warm phase (`total_selections >= 10`), `recommend` returns
`min 7 n` dishes for a cuisine with `n` available dishes, independently of
the `count` argument: exactly 7 when `n >= 7`, and fewer (namely `n`) when
`n < 7`. -/
theorem c4_warm_phase_returns_seven (sample : List String → Nat → List String)
    (s : Sys) (cuisine : String) (count : Nat) (avail : List String)
    (h1 : lookupDishes s.dishes_by_cuisine cuisine = some avail)
    (h2 : ¬ s.total_selections < 10) :
    ((get_recommendations_by_cuisine sample s cuisine count).1).length =
      min 7 avail.length ∧
    (7 ≤ avail.length →
      ((get_recommendations_by_cuisine sample s cuisine count).1).length = 7) ∧
    (avail.length < 7 →
      ((get_recommendations_by_cuisine sample s cuisine count).1).length < 7) := by
  have key : ((get_recommendations_by_cuisine sample s cuisine count).1).length =
      min 7 avail.length := by
    unfold get_recommendations_by_cuisine
    rw [h1]
    by_cases h0 : avail = []
    · subst h0
      simp
    · simp only [h0, if_neg, h2, if_false]
      rw [List.length_take, warmResult_length]
      omega
  exact ⟨key, fun h => by omega, fun h => by omega⟩

/-- Warm-phase state for the C4 witness: ten selections recorded, eight
dishes available. -/
def sysC4 : Sys :=
  ⟨["c"], [("c", ["d1", "d2", "d3", "d4", "d5", "d6", "d7", "d8"])],
    ["d1", "d2", "d3", "d4", "d5", "d6", "d7", "d8"],
    [("d1", ⟨3, 2⟩), ("d2", ⟨2, 1⟩), ("d3", ⟨1, 0⟩), ("d4", ⟨1, 5⟩),
      ("d5", ⟨1, 1⟩), ("d6", ⟨1, 0⟩), ("d7", ⟨1, 2⟩), ("d8", ⟨0, 4⟩)], 10, 1⟩

/-- Witness for C4: with 10 selections and 8 dishes, exactly 7 come back
(also with a `count` argument of 5). -/
theorem c4_witness :
    ((get_recommendations_by_cuisine takeSampler sysC4 "c" 5).1).length = 7 :=
  (c4_warm_phase_returns_seven takeSampler sysC4 "c" 5
    ["d1", "d2", "d3", "d4", "d5", "d6", "d7", "d8"] (by decide) (by decide)).2.1
    (by decide)

/-! ### Recommendation-count update (claim C5) -/

theorem lookupStat_recFold_not_mem (p : Prefs) (ds : List String) (d : String)
    (hd : d ∉ ds) :
    lookupStat (recFold p ds) d = lookupStat p d := by
  induction ds generalizing p with
  | nil => rfl
  | cons e rest ih =>
    rw [recFold_cons]
    have hne : d ≠ e := fun h => hd (h ▸ List.mem_cons_self e rest)
    have hd' : d ∉ rest := fun h => hd (List.mem_cons_of_mem e h)
    by_cases h : (lookupStat p e).isSome
    · rw [if_pos h, ih _ hd', lookupStat_setStat]
      simp [hne]
    · rw [if_neg h]
      exact ih _ hd'

theorem lookupStat_recFold_mem (p : Prefs) (ds : List String) (d : String)
    (hnd : ds.Nodup) (hd : d ∈ ds) :
    lookupStat (recFold p ds) d = (lookupStat p d).map bumpRec := by
  induction ds generalizing p with
  | nil => simp at hd
  | cons e rest ih =>
    rw [recFold_cons]
    rcases List.mem_cons.mp hd with h | h
    · subst h
      have hdr : d ∉ rest := (List.nodup_cons.mp hnd).1
      by_cases hl : (lookupStat p d).isSome
      · rw [if_pos hl, lookupStat_recFold_not_mem _ _ _ hdr, lookupStat_setStat]
        simp
      · rw [if_neg hl, lookupStat_recFold_not_mem _ _ _ hdr]
        cases hx : lookupStat p d
        · simp
        · rw [hx] at hl
          simp at hl
    · have hnd' := (List.nodup_cons.mp hnd).2
      have hne : d ≠ e := fun hh => (List.nodup_cons.mp hnd).1 (hh ▸ h)
      by_cases hl : (lookupStat p e).isSome
      · rw [if_pos hl, ih _ hnd' h, lookupStat_setStat]
        simp [hne]
      · rw [if_neg hl]
        exact ih _ hnd' h

theorem recFold_sel_preserved (p : Prefs) (ds : List String) (d : String) :
    (lookupStat (recFold p ds) d).map (fun st => st.selection_count) =
      (lookupStat p d).map (fun st => st.selection_count) := by
  induction ds generalizing p with
  | nil => rfl
  | cons e rest ih =>
    rw [recFold_cons]
    by_cases h : (lookupStat p e).isSome
    · rw [if_pos h, ih, lookupStat_setStat]
      by_cases he : d = e
      · subst he
        cases hx : lookupStat p d <;> simp [bumpRec]
      · simp [he]
    · rw [if_neg h]
      exact ih p

/-- C5 (amended): `update_recommendation_count` increments the
`recommendation_count` of every listed dish that has an entry in the
preference store — a listed dish with no entry stays absent, no entry is
created — leaves every other dish, every `selection_count` and
`total_selections` unchanged, and persists exactly once; and any `recommend`
call that returns a non-empty list reaches its final state through exactly
one such update on its result. -/
theorem c5_update_after_recommend (s : Sys) (ds : List String)
    (sample : List String → Nat → List String) (cuisine : String) (count : Nat) :
    (ds.Nodup →
      (∀ d ∈ ds, lookupStat (update_recommendation_count s ds).pref_dishes d =
        (lookupStat s.pref_dishes d).map bumpRec) ∧
      (∀ d, d ∉ ds → lookupStat (update_recommendation_count s ds).pref_dishes d =
        lookupStat s.pref_dishes d)) ∧
    (∀ d, (lookupStat (update_recommendation_count s ds).pref_dishes d).map
        (fun st => st.selection_count) =
      (lookupStat s.pref_dishes d).map (fun st => st.selection_count)) ∧
    (update_recommendation_count s ds).total_selections = s.total_selections ∧
    (update_recommendation_count s ds).saves = s.saves + 1 ∧
    ((get_recommendations_by_cuisine sample s cuisine count).1 ≠ [] →
      (get_recommendations_by_cuisine sample s cuisine count).2 =
        update_recommendation_count s
          (get_recommendations_by_cuisine sample s cuisine count).1) := by
  refine ⟨?_, ?_, by simp [update_recommendation_count, save],
    by simp [update_recommendation_count, save], ?_⟩
  · intro hnd
    constructor
    · intro d hd
      simpa [update_recommendation_count, save] using
        lookupStat_recFold_mem s.pref_dishes ds d hnd hd
    · intro d hd
      simpa [update_recommendation_count, save] using
        lookupStat_recFold_not_mem s.pref_dishes ds d hd
  · intro d
    simpa [update_recommendation_count, save] using
      recFold_sel_preserved s.pref_dishes ds d
  · intro hne
    unfold get_recommendations_by_cuisine at hne ⊢
    cases hx : lookupDishes s.dishes_by_cuisine cuisine with
    | none =>
      rw [hx] at hne
      simp at hne
    | some avail =>
      rw [hx] at hne
      by_cases h0 : avail = []
      · simp [h0] at hne
      · by_cases hph : s.total_selections < 10
        · simp [h0, hph]
        · simp only [h0, if_neg, hph, if_false]
          have hlen : (warmResult sample s.pref_dishes avail).length ≤ 7 := by
            rw [warmResult_length]
            omega
          rw [List.take_of_length_le hlen]

/-- State for the C5 counterexample: preference dict empty, as right after a
reset. -/
def sysC5 : Sys :=
  ⟨["Chinese Cuisine"], [("Chinese Cuisine", ["Dumplings", "Noodles"])],
    ["Dumplings", "Noodles"], [], 0, 1⟩

/-- C5 counterexample: a recommend call returns both dishes, but neither has
a store entry, so no `recommendation_count` becomes 1 — the preference dict
stays empty, refuting the "including dishes that had no entry" part. -/
theorem c5_counterexample :
    (get_recommendations_by_cuisine takeSampler sysC5 "Chinese Cuisine" 5).1 =
      ["Dumplings", "Noodles"] ∧
    (get_recommendations_by_cuisine takeSampler sysC5 "Chinese Cuisine"
      5).2.pref_dishes = [] ∧
    statOf ((get_recommendations_by_cuisine takeSampler sysC5 "Chinese Cuisine"
      5).2.pref_dishes) "Dumplings" = ⟨0, 0⟩ := by decide

/-- State for the C5 witness. -/
def sysC5w : Sys :=
  ⟨["c"], [("c", ["d1", "d2"])], ["d1", "d2"],
    [("d1", ⟨2, 3⟩), ("d2", ⟨0, 0⟩)], 2, 1⟩

/-- Witness for C5 at a concrete state, list and dish names. -/
theorem c5_witness :
    lookupStat (update_recommendation_count sysC5w ["d1"]).pref_dishes "d1" =
      (lookupStat sysC5w.pref_dishes "d1").map bumpRec ∧
    lookupStat (update_recommendation_count sysC5w ["d1"]).pref_dishes "d2" =
      lookupStat sysC5w.pref_dishes "d2" ∧
    (update_recommendation_count sysC5w ["d1"]).total_selections =
      sysC5w.total_selections ∧
    (update_recommendation_count sysC5w ["d1"]).saves = sysC5w.saves + 1 ∧
    (get_recommendations_by_cuisine takeSampler sysC5w "c" 5).2 =
      update_recommendation_count sysC5w
        (get_recommendations_by_cuisine takeSampler sysC5w "c" 5).1 := by
  have h := c5_update_after_recommend sysC5w ["d1"] takeSampler "c" 5
  exact ⟨(h.1 (by decide)).1 "d1" (by decide), (h.1 (by decide)).2 "d2" (by decide),
    h.2.2.1, h.2.2.2.1, h.2.2.2.2 (by decide)⟩

/-! ### Unknown cuisine (claim C6) -/

/-- C6 (amended): for a cuisine that is not a key of the catalog mapping,
`recommend` returns an empty list as an ordinary value — no error is
signalled anywhere in the function — and the state comes back exactly
unchanged: no counter moves and nothing is persisted. -/
theorem c6_unknown_cuisine (sample : List String → Nat → List String) (s : Sys)
    (cuisine : String) (count : Nat)
    (h : lookupDishes s.dishes_by_cuisine cuisine = none) :
    get_recommendations_by_cuisine sample s cuisine count = ([], s) := by
  unfold get_recommendations_by_cuisine
  rw [h]

/-- State for the C6 counterexample and witness. -/
def sysC6 : Sys :=
  freshSys ["Chinese Cuisine"] [("Chinese Cuisine", ["Dumplings"])] ["Dumplings"]

/-- C6 counterexample: an unknown cuisine produces a normal empty result with
the state unchanged (in particular `saves` does not move), not a
NotFoundError — the function has no error path at all. -/
theorem c6_counterexample :
    lookupDishes sysC6.dishes_by_cuisine "Thai Cuisine" = none ∧
    get_recommendations_by_cuisine takeSampler sysC6 "Thai Cuisine" 5 =
      ([], sysC6) ∧
    (get_recommendations_by_cuisine takeSampler sysC6 "Thai Cuisine" 5).2.saves =
      sysC6.saves := by decide

/-- Witness for C6 at a concrete unknown cuisine. -/
theorem c6_witness :
    get_recommendations_by_cuisine takeSampler sysC6 "Western Cuisine" 5 =
      ([], sysC6) :=
  c6_unknown_cuisine takeSampler sysC6 "Western Cuisine" 5 (by decide)

/-! ### Catalog immutability (claim C9) -/

theorem recommend_catalog_fields (sample : List String → Nat → List String)
    (s : Sys) (cuisine : String) (count : Nat) :
    (get_recommendations_by_cuisine sample s cuisine count).2.cuisines = s.cuisines ∧
    (get_recommendations_by_cuisine sample s cuisine count).2.dishes_by_cuisine =
      s.dishes_by_cuisine ∧
    (get_recommendations_by_cuisine sample s cuisine count).2.all_dishes =
      s.all_dishes := by
  unfold get_recommendations_by_cuisine
  cases lookupDishes s.dishes_by_cuisine cuisine with
  | none => exact ⟨rfl, rfl, rfl⟩
  | some avail =>
    by_cases h0 : avail = []
    · simp [h0]
    · by_cases hph : s.total_selections < 10 <;>
        simp [h0, hph, update_recommendation_count, save]

/-- C9 (amended): every engine operation leaves `cuisines`, `all_dishes` and
the preference state's catalog view unchanged, and none of `recommend`,
`record_selection` or `reset` touches `dishes_by_cuisine`; the one exception
is `check_dish_exists` queried with a truthy cuisine name that is not a key
of the `defaultdict`: the subscript there appends an empty binding for that
name (every existing binding stays unchanged). -/
theorem c9_catalog_immutability (s : Sys)
    (sample : List String → Nat → List String) (cuisine dish c : String)
    (count : Nat) :
    ((get_recommendations_by_cuisine sample s cuisine count).2.cuisines = s.cuisines ∧
     (get_recommendations_by_cuisine sample s cuisine count).2.dishes_by_cuisine =
       s.dishes_by_cuisine ∧
     (get_recommendations_by_cuisine sample s cuisine count).2.all_dishes =
       s.all_dishes) ∧
    ((update_user_preference s dish).cuisines = s.cuisines ∧
     (update_user_preference s dish).dishes_by_cuisine = s.dishes_by_cuisine ∧
     (update_user_preference s dish).all_dishes = s.all_dishes) ∧
    ((reset_user_preference s).cuisines = s.cuisines ∧
     (reset_user_preference s).dishes_by_cuisine = s.dishes_by_cuisine ∧
     (reset_user_preference s).all_dishes = s.all_dishes) ∧
    (check_dish_exists s dish none).2 = s ∧
    ((check_dish_exists s dish (some c)).2.cuisines = s.cuisines ∧
     (check_dish_exists s dish (some c)).2.all_dishes = s.all_dishes ∧
     (check_dish_exists s dish (some c)).2.pref_dishes = s.pref_dishes ∧
     (check_dish_exists s dish (some c)).2.dishes_by_cuisine =
       (if c ≠ "" ∧ (lookupDishes s.dishes_by_cuisine c).isNone then
          s.dishes_by_cuisine ++ [(c, [])]
        else s.dishes_by_cuisine)) := by
  refine ⟨recommend_catalog_fields sample s cuisine count, ?_, ⟨rfl, rfl, rfl⟩, rfl, ?_⟩
  · unfold update_user_preference
    by_cases hm : dish ∈ s.all_dishes <;> simp [hm, save]
  · unfold check_dish_exists
    by_cases hc : c = ""
    · simp [hc]
    · cases hx : lookupDishes s.dishes_by_cuisine c with
      | none => simp [hc, hx]
      | some l => simp [hc, hx]

/-- State for the C9 counterexample. -/
def sysC9 : Sys :=
  freshSys ["Chinese Cuisine"] [("Chinese Cuisine", ["Dumplings"])] ["Dumplings"]

/-- C9 counterexample: `check_dish_exists` with an unknown cuisine name grows
the catalog mapping by an empty binding — the set of cuisine keys changes. -/
theorem c9_counterexample :
    (check_dish_exists sysC9 "Dumplings" (some "Thai Cuisine")).2.dishes_by_cuisine =
      [("Chinese Cuisine", ["Dumplings"]), ("Thai Cuisine", [])] ∧
    (check_dish_exists sysC9 "Dumplings"
      (some "Thai Cuisine")).2.dishes_by_cuisine ≠ sysC9.dishes_by_cuisine := by decide

/-! ### Dish-to-cuisine lookup (claim C10) -/

theorem findCuisine_aux (dbc : List (String × List String)) (dish : String) :
    (dbc.find? (fun e => e.2.any (fun m => dish == strLower m))).map (fun e => e.1) =
      findCuisineForDishSpec dbc dish := by
  induction dbc with
  | nil => rfl
  | cons e rest ih =>
    unfold findCuisineForDishSpec
    by_cases h : ∃ m ∈ e.2, dish = strLower m
    · rw [if_pos h]
      have hb : (e.2.any (fun m => dish == strLower m)) = true := by
        obtain ⟨m, hm, he⟩ := h
        exact List.any_eq_true.mpr ⟨m, hm, by simp [he]⟩
      simp [List.find?_cons, hb]
    · rw [if_neg h]
      have hb : (e.2.any (fun m => dish == strLower m)) = false := by
        rw [List.any_eq_false]
        intro m hm
        simp only [beq_iff_eq]
        exact fun he => h ⟨m, hm, he⟩
      rw [← ih]
      simp [List.find?_cons, hb]

/-- C10 (amended): `get_cuisine_for_dish` returns the first cuisine in
catalog order whose dish list has an entry whose **lowercased** string equals
the input dish name exactly (the code lowercases the catalog entry, not the
input), and `none` ("not found") when no such entry exists. -/
theorem c10_get_cuisine_for_dish (s : Sys) (dish : String) :
    get_cuisine_for_dish s dish = findCuisineForDishSpec s.dishes_by_cuisine dish :=
  findCuisine_aux s.dishes_by_cuisine dish

/-- State for the C10 counterexample. -/
def sysC10 : Sys :=
  ⟨["Japanese Cuisine"], [("Japanese Cuisine", ["Sushi"])], ["Sushi"], [], 0, 1⟩

/-- C10 counterexample: for the input "sushi", no catalog entry's exact
string equals the lowercased input (the only entry is "Sushi"), so the claim
demands "not found" — but the code compares the input against the lowercased
entry and returns the cuisine. -/
theorem c10_counterexample :
    sysC10.dishes_by_cuisine.all (fun e => decide ("sushi" ∉ e.2)) = true ∧
    get_cuisine_for_dish sysC10 "sushi" = some "Japanese Cuisine" := by decide
